import Mathlib

/-!
Verification development for the ClaudeCodeBrowser repository.

The background script (`src/extension/background.js`) is a single-threaded,
event-driven request broker over a native-messaging transport.  We embed it
as a state machine: the module-level mutable variables become the fields of
`CCB.BState`, and each synchronous entry point of the script
(`handleDisconnect`, `handleNativeMessage`, the `doSend` body of
`sendToNativeHost`, the per-request timeout callback, `connectNativeHost`,
and the max-attempts cooldown timer callback) becomes a pure function
`BState → BState × List Effect`.  Calls into the environment
(promise resolution/rejection, `setTimeout` scheduling, `postMessage`)
are recorded as `Effect`s in the order the script performs them.

The content script's DOM-synchronization primitives
(`src/extension/content.js`: `waitForChange`, `waitForNetworkIdle`,
`observeElement`, `stopObserving`) are embedded further below.
-/

namespace CCB

/-- JS truthiness of an optional integer field (`if (message.requestId)`):
`undefined` and `0` are falsy. -/
def optNatTruthy : Option Nat → Bool
  | some n => n != 0
  | none => false

/-- JS truthiness of an optional string field (`if (message.error)`):
`undefined` and the empty string are falsy. -/
def optStrTruthy : Option String → Bool
  | some s => s != ""
  | none => false

/-- A native-messaging frame as far as the broker inspects it:
`message.requestId`, `message.error`, `message.action`.  The rest of the
payload is opaque to the correlation layer. -/
structure Msg where
  requestId : Option Nat
  error : Option String
  action : Option String
deriving DecidableEq

/-- Result object built by `handleCommand` (`{success, error?}`; further
result fields are opaque pass-through). -/
structure CmdResult where
  success : Bool
  error : Option String
deriving DecidableEq

/-- Outcome of invoking one of the concrete command handlers (external
collaborators): either a returned result or a thrown error, which the
`try/catch` in `handleCommand` normalizes. -/
inductive CmdOutcome where
  | ok (r : CmdResult)
  | threw (msg : String)
deriving DecidableEq

/-- Observable actions the background script performs on its environment,
in program order: settling a pending promise (`resolveEff`/`rejectEff`),
allocating a correlation id (`allocEff` records `++requestCounter`),
posting a frame to the native port, dispatching an inbound command,
scheduling reconnect/cooldown/send-retry timers, or rejecting a send after
retry exhaustion. -/
inductive Effect where
  | resolveEff (id : Nat)
  | rejectEff (id : Nat) (msg : String)
  | allocEff (id : Nat)
  | postNative (id : Nat)
  | postBack (id : Nat) (r : CmdResult)
  | runCommand (m : Msg)
  | schedReconnect (delayMs : ℚ)
  | schedCooldown (delayMs : ℚ)
  | sendRetrySched
  | sendFailEff
deriving DecidableEq

/-- The module-level mutable state of `background.js`: `isConnected`,
`nativePort` (modelled by whether a live port object exists), the
`pendingRequests` map (its keys, in insertion order — the promise callbacks
are represented by effects tagged with the key), `requestCounter`, and
`reconnectAttempts`. -/
structure BState where
  isConnected : Bool
  hasPort : Bool
  pending : List Nat
  requestCounter : Nat
  reconnectAttempts : Nat
deriving DecidableEq

/-- `MAX_RECONNECT_ATTEMPTS = 20`. -/
def MAX_RECONNECT_ATTEMPTS : Nat := 20

/-- `INITIAL_RECONNECT_DELAY = 1000` (ms). -/
def INITIAL_RECONNECT_DELAY : ℚ := 1000

/-- `MAX_RECONNECT_DELAY = 30000` (ms). -/
def MAX_RECONNECT_DELAY : ℚ := 30000

/-- The fixed cooldown (`60000` ms) used once the attempt ceiling is hit. -/
def COOLDOWN_DELAY : ℚ := 60000

/-- `MAX_RETRIES = 3` inside `sendToNativeHost`. -/
def MAX_RETRIES : Nat := 3

/-- `getReconnectDelay`: `Math.min(INITIAL_RECONNECT_DELAY *
Math.pow(1.5, reconnectAttempts), MAX_RECONNECT_DELAY)`.  For exponents up
to the attempt ceiling the double-precision computation is exact
(numerator and denominator stay below 2^53), so the rational value is the
value the script computes. -/
def getReconnectDelay (reconnectAttempts : Nat) : ℚ :=
  min (INITIAL_RECONNECT_DELAY * (3 / 2 : ℚ) ^ reconnectAttempts) MAX_RECONNECT_DELAY

/-- `scheduleReconnect`: at or above the ceiling, schedule the 60 s
cooldown timer (which later resets the counter and retries); otherwise
schedule `connectNativeHost` after `getReconnectDelay()` and increment
`reconnectAttempts`. -/
def scheduleReconnect (s : BState) : BState × List Effect :=
  if s.reconnectAttempts ≥ MAX_RECONNECT_ATTEMPTS then
    (s, [Effect.schedCooldown COOLDOWN_DELAY])
  else
    ({ s with reconnectAttempts := s.reconnectAttempts + 1 },
     [Effect.schedReconnect (getReconnectDelay s.reconnectAttempts)])

/-- `connectNativeHost`: early-return when already connected; otherwise
`browser.runtime.connectNative` either succeeds (`ok = true`: port stored,
`isConnected = true`, `reconnectAttempts = 0`) or throws (`ok = false`:
state cleared and `scheduleReconnect()`). -/
def connectNativeHost (s : BState) (ok : Bool) : BState × List Effect :=
  if s.isConnected && s.hasPort then (s, [])
  else if ok then
    ({ s with isConnected := true, hasPort := true, reconnectAttempts := 0 }, [])
  else
    scheduleReconnect { s with isConnected := false, hasPort := false }

/-- The callback of the 60 s cooldown timer in `scheduleReconnect`:
`reconnectAttempts = 0; connectNativeHost();`. -/
def cooldownFire (s : BState) (ok : Bool) : BState × List Effect :=
  connectNativeHost { s with reconnectAttempts := 0 } ok

/-- The error message used when rejecting pending requests on disconnect. -/
def DISCONNECT_ERR : String := "Native host disconnected - reconnecting..."

/-- `handleDisconnect`: clear the connection state, reject every pending
request (map iteration order = insertion order), clear the table, then
`scheduleReconnect()`. -/
def handleDisconnect (s : BState) : BState × List Effect :=
  let rejects := s.pending.map fun id => Effect.rejectEff id DISCONNECT_ERR
  let s1 : BState := { s with isConnected := false, hasPort := false, pending := [] }
  let r2 := scheduleReconnect s1
  (r2.1, rejects ++ r2.2)

/-- `handleNativeMessage`: if `message.requestId` is truthy and pending,
delete the entry and settle it (reject when `message.error` is truthy,
resolve otherwise); else if `message.action` is truthy, dispatch to
`handleCommand`; else do nothing. -/
def handleNativeMessage (s : BState) (m : Msg) : BState × List Effect :=
  if optNatTruthy m.requestId = true ∧ m.requestId.getD 0 ∈ s.pending then
    let rid := m.requestId.getD 0
    ({ s with pending := s.pending.erase rid },
     [if optStrTruthy m.error then Effect.rejectEff rid (m.error.getD "")
      else Effect.resolveEff rid])
  else if optStrTruthy m.action then (s, [Effect.runCommand m])
  else (s, [])

/-- JS `Map.set`, restricted to the key set we track: an existing key keeps
its position, a new key is appended in insertion order. -/
def mapSet (l : List Nat) (id : Nat) : List Nat :=
  if id ∈ l then l else l ++ [id]

/-- The `doSend` body of `sendToNativeHost` (reached only while
connected): allocate `requestId = ++requestCounter`, insert the pending
entry, arm the 30 s timeout (its firing is the separate `Ev.timeout`
event), and `postMessage`.  When `postMessage` throws (`postOk = false`)
the entry is deleted and the timer cleared; with retries left the
connection state is torn down and a retry is scheduled, otherwise the
caller's promise is rejected with the thrown error. -/
def doSend (s : BState) (postOk : Bool) (retryCount : Nat) : BState × List Effect :=
  if postOk then
    ({ s with requestCounter := s.requestCounter + 1,
              pending := mapSet s.pending (s.requestCounter + 1) },
     [Effect.allocEff (s.requestCounter + 1), Effect.postNative (s.requestCounter + 1)])
  else if retryCount < MAX_RETRIES then
    ({ s with requestCounter := s.requestCounter + 1,
              pending := (mapSet s.pending (s.requestCounter + 1)).erase (s.requestCounter + 1),
              isConnected := false, hasPort := false },
     [Effect.allocEff (s.requestCounter + 1), Effect.sendRetrySched])
  else
    ({ s with requestCounter := s.requestCounter + 1,
              pending := (mapSet s.pending (s.requestCounter + 1)).erase (s.requestCounter + 1) },
     [Effect.allocEff (s.requestCounter + 1), Effect.sendFailEff])

/-- The 30-second per-request timeout callback armed in `doSend`: if the
entry is still present, delete it and reject with `"Request timeout"`;
otherwise do nothing. -/
def timeoutFire (s : BState) (id : Nat) : BState × List Effect :=
  if id ∈ s.pending then
    ({ s with pending := s.pending.erase id }, [Effect.rejectEff id "Request timeout"])
  else (s, [])

/-- The closed set of action tags `handleCommand` switches on
(`"refresh"` and `"reload"` share one case). -/
def KNOWN_ACTIONS : List String :=
  ["screenshot", "click", "type", "scroll", "navigate", "getPageInfo",
   "getElements", "executeScript", "highlight", "waitForElement", "getTabs",
   "createTab", "closeTab", "focusTab", "getTabInfo", "findTabs",
   "screenshotAllTabs", "refresh", "reload", "hardRefresh", "reloadAll",
   "reloadByUrl", "startLogging", "stopLogging", "getConsoleLogs",
   "getNetworkLogs", "clearLogs"]

/-- The `result` computed by `handleCommand`'s `try/switch/catch`: a known
action yields the handler's result, with a thrown handler error caught and
normalized to `{success:false, error}`; an unmatched tag yields the
structured unknown-action error. -/
def commandResult (m : Msg) (outcome : CmdOutcome) : CmdResult :=
  let a := m.action.getD "undefined"
  if KNOWN_ACTIONS.contains a then
    match outcome with
    | .ok r => r
    | .threw e => { success := false, error := some e }
  else { success := false, error := some ("Unknown action: " ++ a) }

/-- `handleCommand`: compute the result, then — only if the port is live
and the inbound frame carried a truthy `requestId` — post the result back
stamped with that same `requestId`. -/
def handleCommand (hasPort : Bool) (m : Msg) (outcome : CmdOutcome) :
    CmdResult × List Effect :=
  let result := commandResult m outcome
  (result,
   if hasPort && optNatTruthy m.requestId then
     [Effect.postBack (m.requestId.getD 0) result]
   else [])

/-- One synchronous execution segment of the event loop.  `send` is a
`sendToNativeHost` invocation that reaches `doSend`; when disconnected,
that call only runs `connectNativeHost` and schedules deferred re-entries,
which a trace represents as separate `connect`/`send` events. -/
inductive Ev where
  | disconnect
  | native (m : Msg)
  | send (postOk : Bool) (retryCount : Nat)
  | timeout (id : Nat)
  | connect (ok : Bool)
  | cooldown (ok : Bool)
deriving DecidableEq

/-- Dispatch one event to the corresponding entry point of the script. -/
def step (s : BState) : Ev → BState × List Effect
  | .disconnect => handleDisconnect s
  | .native m => handleNativeMessage s m
  | .send postOk retryCount =>
      if s.isConnected && s.hasPort then doSend s postOk retryCount else (s, [])
  | .timeout id => timeoutFire s id
  | .connect ok => connectNativeHost s ok
  | .cooldown ok => cooldownFire s ok

/-- Run a trace of events, accumulating the emitted effects in order. -/
def runB : BState → List Ev → BState × List Effect
  | s, [] => (s, [])
  | s, e :: es =>
    let r1 := step s e
    let r2 := runB r1.1 es
    (r2.1, r1.2 ++ r2.2)

/-- The initial module state of `background.js` at script load. -/
def initB : BState :=
  { isConnected := false, hasPort := false, pending := [],
    requestCounter := 0, reconnectAttempts := 0 }

/-- An effect settles the pending request with correlation id `id`. -/
def isTerminalFor (id : Nat) : Effect → Bool
  | .resolveEff i => i == id
  | .rejectEff i _ => i == id
  | _ => false

/-- How many effects in a list settle correlation id `id`. -/
def terminalCount (id : Nat) (effs : List Effect) : Nat :=
  effs.countP (isTerminalFor id)

/-- The correlation ids allocated (`++requestCounter`) along an effect
trace, in order. -/
def allocIds (effs : List Effect) : List Nat :=
  effs.filterMap fun e =>
    match e with
    | .allocEff i => some i
    | _ => none

/-- State invariant of the broker: the pending table has no duplicate
keys, every pending key is a previously allocated id (positive and at most
the counter), and while connected the reconnect counter is zero. -/
def Inv (s : BState) : Prop :=
  s.pending.Nodup ∧ (∀ id ∈ s.pending, 1 ≤ id ∧ id ≤ s.requestCounter) ∧
    (s.isConnected = true → s.reconnectAttempts = 0)

end CCB

namespace CCB

lemma nodup_append_single {l : List Nat} {x : Nat} (h : l.Nodup) (hx : x ∉ l) :
    (l ++ [x]).Nodup := by
  simp [List.nodup_append, h, hx]

lemma erase_append_single {l : List Nat} {x : Nat} (hx : x ∉ l) :
    (l ++ [x]).erase x = l := by
  rw [List.erase_append_right _ hx]
  simp

lemma scheduleReconnect_pending (s : BState) :
    (scheduleReconnect s).1.pending = s.pending := by
  unfold scheduleReconnect
  split <;> rfl

lemma scheduleReconnect_counter (s : BState) :
    (scheduleReconnect s).1.requestCounter = s.requestCounter := by
  unfold scheduleReconnect
  split <;> rfl

lemma scheduleReconnect_conn (s : BState) :
    (scheduleReconnect s).1.isConnected = s.isConnected := by
  unfold scheduleReconnect
  split <;> rfl

lemma scheduleReconnect_noTerminal (s : BState) (id : Nat) :
    terminalCount id (scheduleReconnect s).2 = 0 := by
  unfold scheduleReconnect
  split <;> simp [terminalCount, isTerminalFor]

lemma scheduleReconnect_noAlloc (s : BState) :
    allocIds (scheduleReconnect s).2 = [] := by
  unfold scheduleReconnect
  split <;> simp [allocIds]

lemma connectNativeHost_pending (s : BState) (ok : Bool) :
    (connectNativeHost s ok).1.pending = s.pending := by
  unfold connectNativeHost
  split
  · rfl
  · split
    · rfl
    · exact scheduleReconnect_pending _

lemma connectNativeHost_counter (s : BState) (ok : Bool) :
    (connectNativeHost s ok).1.requestCounter = s.requestCounter := by
  unfold connectNativeHost
  split
  · rfl
  · split
    · rfl
    · exact scheduleReconnect_counter _

lemma connectNativeHost_noTerminal (s : BState) (ok : Bool) (id : Nat) :
    terminalCount id (connectNativeHost s ok).2 = 0 := by
  unfold connectNativeHost
  split
  · simp [terminalCount]
  · split
    · simp [terminalCount]
    · exact scheduleReconnect_noTerminal _ _

lemma connectNativeHost_noAlloc (s : BState) (ok : Bool) :
    allocIds (connectNativeHost s ok).2 = [] := by
  unfold connectNativeHost
  split
  · simp [allocIds]
  · split
    · simp [allocIds]
    · exact scheduleReconnect_noAlloc _

end CCB

namespace CCB

lemma inv_scheduleReconnect {s : BState} (h : Inv s) (hc : s.isConnected = false) :
    Inv (scheduleReconnect s).1 := by
  obtain ⟨h1, h2, _⟩ := h
  unfold scheduleReconnect
  split
  · exact ⟨h1, h2, fun hcc => absurd hcc (by simp [hc])⟩
  · exact ⟨h1, h2, fun hcc => absurd hcc (by simp [hc])⟩

lemma inv_connectNativeHost {s : BState} (h : Inv s) (ok : Bool) :
    Inv (connectNativeHost s ok).1 := by
  obtain ⟨h1, h2, h3⟩ := h
  unfold connectNativeHost
  split
  · exact ⟨h1, h2, h3⟩
  · split
    · exact ⟨h1, h2, fun _ => rfl⟩
    · have hmid : Inv ({ s with isConnected := false, hasPort := false } : BState) :=
        ⟨h1, h2, fun hcc => by simp at hcc⟩
      exact inv_scheduleReconnect hmid rfl

lemma inv_cooldownFire {s : BState} (h : Inv s) (ok : Bool) :
    Inv (cooldownFire s ok).1 := by
  obtain ⟨h1, h2, _⟩ := h
  have hmid : Inv ({ s with reconnectAttempts := 0 } : BState) := ⟨h1, h2, fun _ => rfl⟩
  exact inv_connectNativeHost hmid ok

lemma inv_handleDisconnect {s : BState} (_h : Inv s) :
    Inv (handleDisconnect s).1 := by
  have hmid : Inv ({ s with isConnected := false, hasPort := false, pending := [] } : BState) :=
    ⟨List.nodup_nil, by simp, fun hcc => by simp at hcc⟩
  exact inv_scheduleReconnect hmid rfl

lemma inv_handleNativeMessage {s : BState} (h : Inv s) (m : Msg) :
    Inv (handleNativeMessage s m).1 := by
  obtain ⟨h1, h2, h3⟩ := h
  unfold handleNativeMessage
  split
  · exact ⟨h1.erase _, fun id hid => h2 id (List.mem_of_mem_erase hid), h3⟩
  · split
    · exact ⟨h1, h2, h3⟩
    · exact ⟨h1, h2, h3⟩

lemma inv_timeoutFire {s : BState} (h : Inv s) (id : Nat) :
    Inv (timeoutFire s id).1 := by
  obtain ⟨h1, h2, h3⟩ := h
  unfold timeoutFire
  split
  · exact ⟨h1.erase _, fun j hj => h2 j (List.mem_of_mem_erase hj), h3⟩
  · exact ⟨h1, h2, h3⟩

lemma fresh_not_mem {s : BState} (h : Inv s) :
    s.requestCounter + 1 ∉ s.pending := by
  intro hmem
  have hb := (h.2.1 _ hmem).2
  omega

lemma mapSet_fresh {s : BState} (h : Inv s) :
    mapSet s.pending (s.requestCounter + 1) = s.pending ++ [s.requestCounter + 1] := by
  unfold mapSet
  rw [if_neg (fresh_not_mem h)]

lemma mapSet_fresh_erase {s : BState} (h : Inv s) :
    (mapSet s.pending (s.requestCounter + 1)).erase (s.requestCounter + 1) = s.pending := by
  rw [mapSet_fresh h]
  exact erase_append_single (fresh_not_mem h)

lemma inv_doSend {s : BState} (h : Inv s) (postOk : Bool) (retryCount : Nat) :
    Inv (doSend s postOk retryCount).1 := by
  obtain ⟨h1, h2, h3⟩ := h
  have hfresh : s.requestCounter + 1 ∉ s.pending := fresh_not_mem ⟨h1, h2, h3⟩
  have hnodup : (s.pending ++ [s.requestCounter + 1]).Nodup := nodup_append_single h1 hfresh
  have hbound : ∀ id ∈ s.pending ++ [s.requestCounter + 1],
      1 ≤ id ∧ id ≤ s.requestCounter + 1 := by
    intro id hid
    rcases List.mem_append.mp hid with hl | hr
    · have hb := h2 id hl
      omega
    · simp at hr
      omega
  unfold doSend
  split
  · rw [mapSet_fresh ⟨h1, h2, h3⟩]
    exact ⟨hnodup, hbound, h3⟩
  · split
    · rw [mapSet_fresh_erase ⟨h1, h2, h3⟩]
      exact ⟨h1, fun id hid => ⟨(h2 id hid).1, Nat.le_succ_of_le (h2 id hid).2⟩,
             fun hcc => by simp at hcc⟩
    · rw [mapSet_fresh_erase ⟨h1, h2, h3⟩]
      exact ⟨h1, fun id hid => ⟨(h2 id hid).1, Nat.le_succ_of_le (h2 id hid).2⟩, h3⟩

lemma inv_step {s : BState} (h : Inv s) (e : Ev) : Inv (step s e).1 := by
  cases e with
  | disconnect => exact inv_handleDisconnect h
  | native m => exact inv_handleNativeMessage h m
  | send postOk retryCount =>
      by_cases hc : (s.isConnected && s.hasPort) = true
      · simpa [step, hc] using inv_doSend h postOk retryCount
      · simpa [step, hc] using h
  | timeout id => exact inv_timeoutFire h id
  | connect ok => exact inv_connectNativeHost h ok
  | cooldown ok => exact inv_cooldownFire h ok

lemma inv_initB : Inv initB :=
  ⟨List.nodup_nil, by simp [initB], fun hcc => by simp [initB] at hcc⟩

lemma inv_runB {s : BState} (h : Inv s) (evs : List Ev) : Inv (runB s evs).1 := by
  induction evs generalizing s with
  | nil => exact h
  | cons e es ih => exact ih (inv_step h e)

end CCB

namespace CCB

namespace Legacy

/-- Module state of the earlier background-script variant
(`src/unnamed/part_000`), which has no reconnect counter. -/
structure LState where
  isConnected : Bool
  hasPort : Bool
  pending : List Nat
  requestCounter : Nat
deriving DecidableEq

/-- Rejection message used by the earlier variant's `handleDisconnect`. -/
def DISCONNECT_ERR : String := "Native host disconnected"

/-- `handleDisconnect` of the earlier variant: clear the connection state,
reject every pending request, clear the table, then
`setTimeout(connectNativeHost, 5000)`. -/
def handleDisconnect (s : LState) : LState × List Effect :=
  ({ s with isConnected := false, hasPort := false, pending := [] },
   (s.pending.map fun id => Effect.rejectEff id DISCONNECT_ERR) ++
     [Effect.schedReconnect 5000])

end Legacy

lemma count_map_rejectEff (l : List Nat) (msg : String) (id : Nat) :
    (l.map fun i => Effect.rejectEff i msg).count (Effect.rejectEff id msg) =
      l.count id := by
  induction l with
  | nil => rfl
  | cons a t ih =>
      by_cases hai : a = id
      · simp [List.count_cons, ih, hai]
      · simp [List.count_cons, ih, hai, Effect.rejectEff.injEq]

lemma count_rejectEff_scheduleReconnect (t : BState) (id : Nat) (msg : String) :
    (scheduleReconnect t).2.count (Effect.rejectEff id msg) = 0 := by
  unfold scheduleReconnect
  split <;> simp

/-- C1: a transport disconnect fails exactly the pending requests, each
exactly once, with the "disconnected" error, empties the table, and the
only further action in the same synchronous segment is scheduling the next
reconnect attempt (the effect list is the rejections followed by exactly
the scheduling output).  The conjuncts about `Legacy.handleDisconnect`
state the same for the earlier variant in `src/unnamed/part_000`. -/
theorem handleDisconnect_fails_exactly_pending (s : BState) (sL : Legacy.LState)
    (h : s.pending.Nodup) (hL : sL.pending.Nodup) :
    (handleDisconnect s).1.pending = [] ∧
    (handleDisconnect s).2 =
      (s.pending.map fun id => Effect.rejectEff id DISCONNECT_ERR) ++
        (scheduleReconnect
          { s with isConnected := false, hasPort := false, pending := [] }).2 ∧
    (∀ id ∈ s.pending,
      (handleDisconnect s).2.count (Effect.rejectEff id DISCONNECT_ERR) = 1) ∧
    (∀ id msg, Effect.rejectEff id msg ∈ (handleDisconnect s).2 →
      id ∈ s.pending ∧ msg = DISCONNECT_ERR) ∧
    ((scheduleReconnect
        { s with isConnected := false, hasPort := false, pending := [] }).2 =
          [Effect.schedCooldown COOLDOWN_DELAY] ∨
     (scheduleReconnect
        { s with isConnected := false, hasPort := false, pending := [] }).2 =
          [Effect.schedReconnect (getReconnectDelay s.reconnectAttempts)]) ∧
    (Legacy.handleDisconnect sL).1.pending = [] ∧
    (Legacy.handleDisconnect sL).2 =
      (sL.pending.map fun id => Effect.rejectEff id Legacy.DISCONNECT_ERR) ++
        [Effect.schedReconnect 5000] ∧
    (∀ id ∈ sL.pending,
      (Legacy.handleDisconnect sL).2.count
        (Effect.rejectEff id Legacy.DISCONNECT_ERR) = 1) := by
  refine ⟨?_, rfl, ?_, ?_, ?_, rfl, rfl, ?_⟩
  · show (scheduleReconnect _).1.pending = _
    rw [scheduleReconnect_pending]
  · intro id hid
    show ((s.pending.map fun i => Effect.rejectEff i DISCONNECT_ERR) ++
      (scheduleReconnect _).2).count (Effect.rejectEff id DISCONNECT_ERR) = 1
    rw [List.count_append, count_map_rejectEff, count_rejectEff_scheduleReconnect,
        List.count_eq_one_of_mem h hid]
  · intro id msg hmem
    rcases List.mem_append.mp hmem with hmap | hsched
    · rcases List.mem_map.mp hmap with ⟨i, hi, heq⟩
      obtain ⟨rfl, rfl⟩ := Effect.rejectEff.injEq _ _ _ _ |>.mp heq.symm
      exact ⟨hi, rfl⟩
    · revert hsched
      unfold scheduleReconnect
      split <;> simp
  · unfold scheduleReconnect
    split
    · left; rfl
    · right; rfl
  · intro id hid
    show ((sL.pending.map fun i => Effect.rejectEff i Legacy.DISCONNECT_ERR) ++
      [Effect.schedReconnect 5000]).count
        (Effect.rejectEff id Legacy.DISCONNECT_ERR) = 1
    rw [List.count_append, count_map_rejectEff, List.count_eq_one_of_mem hL hid]
    simp

/-- Concrete instance of C1: two in-flight requests (ids 5 and 6) at
disconnect time are both rejected once and the table is emptied. -/
theorem handleDisconnect_fails_exactly_pending_witness :
    (handleDisconnect ⟨true, true, [5, 6], 6, 0⟩).1.pending = [] ∧
    (handleDisconnect ⟨true, true, [5, 6], 6, 0⟩).2.count
      (Effect.rejectEff 5 DISCONNECT_ERR) = 1 := by
  have h := handleDisconnect_fails_exactly_pending
    ⟨true, true, [5, 6], 6, 0⟩ ⟨true, true, [5, 6], 6⟩ (by decide) (by decide)
  exact ⟨h.1, h.2.2.1 5 (by decide)⟩

end CCB

namespace CCB

/-- Potential of a correlation id against a broker state: 1 if a terminal
settlement is still possible for it (pending now, or not yet allocated),
0 if it is spent (allocated in the past and no longer pending). -/
def gWeight (s : BState) (id : Nat) : Nat :=
  if id ∈ s.pending then 1 else if id ≤ s.requestCounter then 0 else 1

lemma gWeight_le_one (s : BState) (id : Nat) : gWeight s id ≤ 1 := by
  unfold gWeight
  split_ifs <;> omega

lemma terminalCount_append (id : Nat) (l1 l2 : List Effect) :
    terminalCount id (l1 ++ l2) = terminalCount id l1 + terminalCount id l2 :=
  List.countP_append _ _ _

lemma terminalCount_map_reject (l : List Nat) (msg : String) (id : Nat) :
    terminalCount id (l.map fun i => Effect.rejectEff i msg) = l.count id := by
  induction l with
  | nil => rfl
  | cons a t ih =>
      by_cases hai : a = id
      · simp [terminalCount, List.countP_cons, List.count_cons, isTerminalFor,
              hai] at *
        omega
      · simp [terminalCount, List.countP_cons, List.count_cons, isTerminalFor,
              hai] at *
        omega

lemma step_bound {s : BState} (h : Inv s) (e : Ev) (id : Nat) :
    terminalCount id (step s e).2 + gWeight (step s e).1 id ≤ gWeight s id := by
  obtain ⟨h1, h2, h3⟩ := h
  cases e with
  | disconnect =>
      have hc : terminalCount id (step s Ev.disconnect).2 =
          s.pending.count id := by
        show terminalCount id ((s.pending.map fun i => Effect.rejectEff i DISCONNECT_ERR)
          ++ (scheduleReconnect _).2) = _
        rw [terminalCount_append, terminalCount_map_reject,
            scheduleReconnect_noTerminal]
        omega
      have hp : (step s Ev.disconnect).1.pending = [] := by
        show (scheduleReconnect _).1.pending = _
        rw [scheduleReconnect_pending]
      have hcnt : (step s Ev.disconnect).1.requestCounter = s.requestCounter := by
        show (scheduleReconnect _).1.requestCounter = _
        rw [scheduleReconnect_counter]
      rw [hc]
      unfold gWeight
      rw [hp, hcnt]
      by_cases hmem : id ∈ s.pending
      · rw [List.count_eq_one_of_mem h1 hmem]
        have hb := h2 id hmem
        simp [hmem]
        omega
      · rw [List.count_eq_zero_of_not_mem hmem]
        simp [hmem]
  | native m =>
      show terminalCount id (handleNativeMessage s m).2 +
        gWeight (handleNativeMessage s m).1 id ≤ gWeight s id
      unfold handleNativeMessage
      split
      case isTrue hcond =>
        obtain ⟨-, hmem⟩ := hcond
        by_cases hval : m.requestId.getD 0 = id
        · rw [hval] at hmem
          have hterm : terminalCount id
              [if optStrTruthy m.error then
                 Effect.rejectEff (m.requestId.getD 0) (m.error.getD "")
               else Effect.resolveEff (m.requestId.getD 0)] = 1 := by
            split <;> simp [terminalCount, List.countP_cons, isTerminalFor, hval]
          rw [hterm]
          unfold gWeight
          simp only [hval]
          have hnotm : id ∉ s.pending.erase id := by
            intro hx
            exact absurd ((h1.mem_erase_iff).mp hx).1 (by simp)
          have hb := h2 id hmem
          simp [hnotm, hmem]
          omega
        · have hterm : terminalCount id
              [if optStrTruthy m.error then
                 Effect.rejectEff (m.requestId.getD 0) (m.error.getD "")
               else Effect.resolveEff (m.requestId.getD 0)] = 0 := by
            split <;> simp [terminalCount, List.countP_cons, isTerminalFor, hval]
          rw [hterm]
          unfold gWeight
          have hiff : id ∈ s.pending.erase (m.requestId.getD 0) ↔ id ∈ s.pending :=
            List.mem_erase_of_ne (by exact fun hx => hval hx.symm)
          by_cases hmem2 : id ∈ s.pending
          · simp [hmem2, hiff.mpr hmem2]
          · have hne : id ∉ s.pending.erase (m.requestId.getD 0) :=
              fun hx => hmem2 (hiff.mp hx)
            simp [hmem2, hne]
      case isFalse =>
        split
        · simp [terminalCount, List.countP_cons, isTerminalFor]
        · simp [terminalCount, List.countP_cons, isTerminalFor]
  | send postOk retryCount =>
      by_cases hconn : (s.isConnected && s.hasPort) = true
      · have hfresh : s.requestCounter + 1 ∉ s.pending := fresh_not_mem ⟨h1, h2, h3⟩
        simp only [step, hconn, if_true]
        unfold doSend
        split
        · rw [mapSet_fresh ⟨h1, h2, h3⟩]
          have hterm : terminalCount id
              [Effect.allocEff (s.requestCounter + 1),
               Effect.postNative (s.requestCounter + 1)] = 0 := by
            simp [terminalCount, List.countP_cons, isTerminalFor]
          rw [hterm]
          unfold gWeight
          by_cases hmem : id ∈ s.pending
          · simp [hmem, List.mem_append.mpr (Or.inl hmem)]
          · by_cases hle : id ≤ s.requestCounter
            · have hne : id ∉ s.pending ++ [s.requestCounter + 1] := by
                intro hx
                rcases List.mem_append.mp hx with hx | hx
                · exact hmem hx
                · simp at hx
                  omega
              simp [hmem, hne, hle]
              omega
            · simp [hmem, hle]
              split_ifs <;> omega
        · split
          · rw [mapSet_fresh_erase ⟨h1, h2, h3⟩]
            have hterm : terminalCount id
                [Effect.allocEff (s.requestCounter + 1), Effect.sendRetrySched] = 0 := by
              simp [terminalCount, List.countP_cons, isTerminalFor]
            rw [hterm]
            unfold gWeight
            by_cases hmem : id ∈ s.pending
            · simp [hmem]
            · simp [hmem]
              split_ifs <;> omega
          · rw [mapSet_fresh_erase ⟨h1, h2, h3⟩]
            have hterm : terminalCount id
                [Effect.allocEff (s.requestCounter + 1), Effect.sendFailEff] = 0 := by
              simp [terminalCount, List.countP_cons, isTerminalFor]
            rw [hterm]
            unfold gWeight
            by_cases hmem : id ∈ s.pending
            · simp [hmem]
            · simp [hmem]
              split_ifs <;> omega
      · simp [step, hconn, terminalCount]
  | timeout tid =>
      show terminalCount id (timeoutFire s tid).2 +
        gWeight (timeoutFire s tid).1 id ≤ gWeight s id
      unfold timeoutFire
      split
      case isTrue hmem =>
        by_cases hval : tid = id
        · subst hval
          have hnotm : tid ∉ s.pending.erase tid := by
            intro hx
            exact absurd ((h1.mem_erase_iff).mp hx).1 (by simp)
          have hb := h2 tid hmem
          unfold gWeight
          simp [terminalCount, List.countP_cons, isTerminalFor, hnotm, hmem]
          omega
        · have hiff : id ∈ s.pending.erase tid ↔ id ∈ s.pending :=
            List.mem_erase_of_ne (fun hx => hval hx.symm)
          unfold gWeight
          by_cases hmem2 : id ∈ s.pending
          · simp [terminalCount, List.countP_cons, isTerminalFor, hval,
                  hmem2, hiff.mpr hmem2]
          · have hne : id ∉ s.pending.erase tid := fun hx => hmem2 (hiff.mp hx)
            simp [terminalCount, List.countP_cons, isTerminalFor, hval, hmem2, hne]
      case isFalse => simp [terminalCount]
  | connect ok =>
      have hterm : terminalCount id (connectNativeHost s ok).2 = 0 :=
        connectNativeHost_noTerminal s ok id
      have hp := connectNativeHost_pending s ok
      have hcnt := connectNativeHost_counter s ok
      show terminalCount id (connectNativeHost s ok).2 +
        gWeight (connectNativeHost s ok).1 id ≤ gWeight s id
      rw [hterm]
      unfold gWeight
      rw [hp, hcnt]
      omega
  | cooldown ok =>
      have hterm : terminalCount id (cooldownFire s ok).2 = 0 :=
        connectNativeHost_noTerminal _ ok id
      have hp : (cooldownFire s ok).1.pending = s.pending :=
        connectNativeHost_pending _ ok
      have hcnt : (cooldownFire s ok).1.requestCounter = s.requestCounter :=
        connectNativeHost_counter _ ok
      show terminalCount id (cooldownFire s ok).2 +
        gWeight (cooldownFire s ok).1 id ≤ gWeight s id
      rw [hterm]
      unfold gWeight
      rw [hp, hcnt]
      omega

lemma runB_bound {s : BState} (h : Inv s) (evs : List Ev) (id : Nat) :
    terminalCount id (runB s evs).2 + gWeight (runB s evs).1 id ≤ gWeight s id := by
  induction evs generalizing s with
  | nil => simp [runB, terminalCount]
  | cons e es ih =>
      have hstep := step_bound h e id
      have hrest := ih (inv_step h e)
      have hrun : runB s (e :: es) =
          ((runB (step s e).1 es).1, (step s e).2 ++ (runB (step s e).1 es).2) := rfl
      rw [hrun]
      rw [terminalCount_append]
      dsimp only
      omega

end CCB

namespace CCB

/-- C2: a response frame whose `requestId` is not in the pending table is
ignored without settling anything (the state is unchanged and the only
possible effect is dispatching an `action`-carrying frame as a command;
totality of `handleNativeMessage` is the no-throw guarantee), and along any
event trace from the initial state each correlation id is settled
(resolved or rejected) at most once. -/
theorem unknown_id_noop_and_single_settlement (evs : List Ev) (m : Msg) (id : Nat) :
    (m.requestId = some id → id ∉ (runB initB evs).1.pending →
      handleNativeMessage (runB initB evs).1 m =
        ((runB initB evs).1,
         if optStrTruthy m.action then [Effect.runCommand m] else [])) ∧
    terminalCount id (runB initB evs).2 ≤ 1 := by
  constructor
  · intro hrid hnot
    unfold handleNativeMessage
    rw [if_neg]
    · split <;> rfl
    · rintro ⟨-, hmem⟩
      rw [hrid] at hmem
      exact hnot hmem
  · have hb := runB_bound inv_initB evs id
    have hg := gWeight_le_one initB id
    omega

/-- Concrete instance of C2: with request 1 in flight, a response carrying
the unknown id 7 and no action field leaves the broker untouched and emits
nothing. -/
theorem unknown_id_noop_and_single_settlement_witness :
    handleNativeMessage (runB initB [Ev.connect true, Ev.send true 0]).1
        ⟨some 7, none, none⟩ =
      ((runB initB [Ev.connect true, Ev.send true 0]).1, []) := by
  have h := (unknown_id_noop_and_single_settlement
    [Ev.connect true, Ev.send true 0] ⟨some 7, none, none⟩ 7).1 rfl (by decide)
  simpa [optStrTruthy] using h

lemma counter_mono (s : BState) (e : Ev) :
    s.requestCounter ≤ (step s e).1.requestCounter := by
  cases e with
  | disconnect =>
      have hcnt : (step s Ev.disconnect).1.requestCounter = s.requestCounter := by
        show (scheduleReconnect _).1.requestCounter = _
        rw [scheduleReconnect_counter]
      omega
  | native m =>
      show s.requestCounter ≤ (handleNativeMessage s m).1.requestCounter
      unfold handleNativeMessage
      split
      · exact Nat.le_refl _
      · split <;> exact Nat.le_refl _
  | send postOk retryCount =>
      by_cases hconn : (s.isConnected && s.hasPort) = true
      · simp only [step, hconn, if_true]
        unfold doSend
        split
        · exact Nat.le_succ _
        · split <;> exact Nat.le_succ _
      · simp [step, hconn]
  | timeout id =>
      show s.requestCounter ≤ (timeoutFire s id).1.requestCounter
      unfold timeoutFire
      split <;> exact Nat.le_refl _
  | connect ok => exact (connectNativeHost_counter s ok).ge
  | cooldown ok =>
      show s.requestCounter ≤
        (connectNativeHost { s with reconnectAttempts := 0 } ok).1.requestCounter
      rw [connectNativeHost_counter]

lemma allocIds_append (l1 l2 : List Effect) :
    allocIds (l1 ++ l2) = allocIds l1 ++ allocIds l2 :=
  List.filterMap_append _ _ _

lemma allocIds_map_reject (l : List Nat) (msg : String) :
    allocIds (l.map fun i => Effect.rejectEff i msg) = [] := by
  induction l with
  | nil => rfl
  | cons a t ih => simp [allocIds, List.filterMap_cons]

/-- Each event either allocates nothing, or allocates exactly the next
counter value and bumps the counter to it. -/
lemma step_allocIds (s : BState) (e : Ev) :
    allocIds (step s e).2 = [] ∨
      (allocIds (step s e).2 = [s.requestCounter + 1] ∧
        (step s e).1.requestCounter = s.requestCounter + 1) := by
  cases e with
  | disconnect =>
      left
      show allocIds ((s.pending.map fun i => Effect.rejectEff i DISCONNECT_ERR)
        ++ (scheduleReconnect _).2) = []
      rw [allocIds_append, allocIds_map_reject, scheduleReconnect_noAlloc]
      rfl
  | native m =>
      left
      show allocIds (handleNativeMessage s m).2 = []
      unfold handleNativeMessage
      split
      · split <;> rfl
      · split <;> rfl
  | send postOk retryCount =>
      by_cases hconn : (s.isConnected && s.hasPort) = true
      · right
        simp only [step, hconn, if_true]
        unfold doSend
        split
        · exact ⟨rfl, rfl⟩
        · split <;> exact ⟨rfl, rfl⟩
      · left
        simp [step, hconn, allocIds]
  | timeout id =>
      left
      show allocIds (timeoutFire s id).2 = []
      unfold timeoutFire
      split <;> rfl
  | connect ok => exact Or.inl (connectNativeHost_noAlloc s ok)
  | cooldown ok => exact Or.inl (connectNativeHost_noAlloc _ ok)

lemma runB_allocIds (s : BState) (evs : List Ev) :
    List.Chain' (· < ·) (allocIds (runB s evs).2) ∧
      ∀ x ∈ allocIds (runB s evs).2, s.requestCounter < x := by
  induction evs generalizing s with
  | nil => exact ⟨List.chain'_nil, by simp [runB, allocIds]⟩
  | cons e es ih =>
      have hrun : runB s (e :: es) =
          ((runB (step s e).1 es).1, (step s e).2 ++ (runB (step s e).1 es).2) := rfl
      rw [hrun]
      dsimp only
      have hmono := counter_mono s e
      obtain ⟨ihc, ihb⟩ := ih (step s e).1
      rcases step_allocIds s e with hz | ⟨ha, hc⟩
      · rw [allocIds_append, hz, List.nil_append]
        exact ⟨ihc, fun x hx => lt_of_le_of_lt hmono (ihb x hx)⟩
      · rw [allocIds_append, ha, List.singleton_append]
        refine ⟨List.chain'_cons'.mpr ⟨fun y hy => ?_, ihc⟩, fun x hx => ?_⟩
        · have hyy := ihb y (List.mem_of_mem_head? hy)
          omega
        · rcases List.mem_cons.mp hx with h1 | h1
          · omega
          · have hxx := ihb x h1
            omega

/-- C3: along every event trace from the initial state the allocated
correlation ids are strictly increasing (so no id is ever reused — across
failed sends and reconnects alike), and the pending table never holds two
entries for the same id. -/
theorem correlationIds_strictly_increasing (evs : List Ev) :
    List.Chain' (· < ·) (allocIds (runB initB evs).2) ∧
      (runB initB evs).1.pending.Nodup :=
  ⟨(runB_allocIds initB evs).1, (inv_runB inv_initB evs).1⟩

end CCB

namespace CCB

/-- C4: while below the 20-attempt ceiling, the delay scheduled when the
streak counter reads `k` is exactly `min(1000 · 1.5^k, 30000)` ms and the
counter is incremented; at or above the ceiling the next scheduled attempt
uses the fixed 60000 ms cooldown instead, and when that timer fires the
counter has been reset: a successful retry leaves it at 0, and even a
failed retry restarts the backoff at the initial 1000 ms delay with the
counter back at 1. -/
theorem reconnect_delay_formula_and_cooldown (s : BState) :
    (s.reconnectAttempts < MAX_RECONNECT_ATTEMPTS →
      scheduleReconnect s =
        ({ s with reconnectAttempts := s.reconnectAttempts + 1 },
         [Effect.schedReconnect
            (min (INITIAL_RECONNECT_DELAY * (3 / 2 : ℚ) ^ s.reconnectAttempts)
              MAX_RECONNECT_DELAY)])) ∧
    (MAX_RECONNECT_ATTEMPTS ≤ s.reconnectAttempts →
      scheduleReconnect s = (s, [Effect.schedCooldown 60000])) ∧
    (s.isConnected = false ∨ s.hasPort = false →
      (cooldownFire s true).1.reconnectAttempts = 0 ∧
      cooldownFire s false =
        ({ s with isConnected := false, hasPort := false, reconnectAttempts := 1 },
         [Effect.schedReconnect 1000])) := by
  refine ⟨fun hlt => ?_, fun hge => ?_, fun hdis => ?_⟩
  · unfold scheduleReconnect
    rw [if_neg (by omega)]
    rfl
  · unfold scheduleReconnect
    rw [if_pos hge]
    rfl
  · have hguard : (s.isConnected && s.hasPort) = false := by
      rcases hdis with hf | hf <;> simp [hf]
    constructor
    · show (connectNativeHost { s with reconnectAttempts := 0 } true).1.reconnectAttempts = 0
      simp [connectNativeHost, hguard]
    · show connectNativeHost { s with reconnectAttempts := 0 } false = _
      have hdelay : getReconnectDelay 0 = 1000 := by
        unfold getReconnectDelay INITIAL_RECONNECT_DELAY MAX_RECONNECT_DELAY
        norm_num
      simp [connectNativeHost, scheduleReconnect, hguard, MAX_RECONNECT_ATTEMPTS,
            hdelay]

/-- Concrete instances of C4: the fifth backoff delay, the cooldown at the
ceiling, and the post-cooldown restart. -/
theorem reconnect_delay_formula_and_cooldown_witness :
    scheduleReconnect ⟨false, false, [], 0, 4⟩ =
      (⟨false, false, [], 0, 5⟩,
       [Effect.schedReconnect (min (1000 * (3 / 2 : ℚ) ^ 4) 30000)]) ∧
    scheduleReconnect ⟨false, false, [], 0, 20⟩ =
      (⟨false, false, [], 0, 20⟩, [Effect.schedCooldown 60000]) ∧
    cooldownFire ⟨false, false, [], 0, 20⟩ false =
      (⟨false, false, [], 0, 1⟩, [Effect.schedReconnect 1000]) := by
  have h4 := reconnect_delay_formula_and_cooldown ⟨false, false, [], 0, 4⟩
  have h20 := reconnect_delay_formula_and_cooldown ⟨false, false, [], 0, 20⟩
  exact ⟨h4.1 (by decide), h20.2.1 (by decide), (h20.2.2 (Or.inl rfl)).2⟩

/-- Events that act on the pending entry with correlation id `id`: a
transport disconnect, an inbound frame carrying that `requestId`, or that
entry's own timeout callback. -/
def touchesId (e : Ev) (id : Nat) : Bool :=
  match e with
  | .disconnect => true
  | .native m => m.requestId == some id
  | .timeout j => j == id
  | _ => false

lemma mem_mapSet_of_mem {l : List Nat} {id x : Nat} (h : id ∈ l) :
    id ∈ mapSet l x := by
  unfold mapSet
  split
  · exact h
  · exact List.mem_append_left _ h

/-- C5: a pending request that no event touches stays pending; when its
30-second timeout fires while it is still pending, that single step removes
the entry and rejects it with `"Request timeout"`; and the timeout callback
is a no-op when the entry is already gone. -/
theorem request_timeout_rejects_and_removes (evs : List Ev) (id : Nat) :
    (id ∈ (runB initB evs).1.pending →
      (∀ e, touchesId e id = false →
        id ∈ (step (runB initB evs).1 e).1.pending) ∧
      step (runB initB evs).1 (Ev.timeout id) =
        ({ (runB initB evs).1 with
            pending := (runB initB evs).1.pending.erase id },
         [Effect.rejectEff id "Request timeout"]) ∧
      id ∉ (step (runB initB evs).1 (Ev.timeout id)).1.pending) ∧
    (id ∉ (runB initB evs).1.pending →
      step (runB initB evs).1 (Ev.timeout id) = ((runB initB evs).1, [])) := by
  obtain ⟨h1, h2, h3⟩ := inv_runB inv_initB evs
  constructor
  · intro hmem
    have htimeq : step (runB initB evs).1 (Ev.timeout id) =
        ({ (runB initB evs).1 with
            pending := (runB initB evs).1.pending.erase id },
         [Effect.rejectEff id "Request timeout"]) := by
      show timeoutFire _ _ = _
      unfold timeoutFire
      rw [if_pos hmem]
    refine ⟨fun e ht => ?_, htimeq, ?_⟩
    · cases e with
      | disconnect => simp [touchesId] at ht
      | native m =>
          have hne' : m.requestId ≠ some id := by
            simpa [touchesId] using ht
          show id ∈ (handleNativeMessage _ m).1.pending
          unfold handleNativeMessage
          split
          case isTrue hcond =>
            obtain ⟨htru, -⟩ := hcond
            cases hrid : m.requestId with
            | none => rw [hrid] at htru; simp [optNatTruthy] at htru
            | some n =>
                have hne : n ≠ id := fun hx => hne' (by rw [hrid, hx])
                exact (List.mem_erase_of_ne hne.symm).mpr hmem
          case isFalse =>
            split
            · exact hmem
            · exact hmem
      | send postOk retryCount =>
          by_cases hconn : ((runB initB evs).1.isConnected &&
              (runB initB evs).1.hasPort) = true
          · simp only [step, hconn, if_true]
            unfold doSend
            split
            · exact mem_mapSet_of_mem hmem
            · split
              · rw [mapSet_fresh_erase ⟨h1, h2, h3⟩]
                exact hmem
              · rw [mapSet_fresh_erase ⟨h1, h2, h3⟩]
                exact hmem
          · simpa [step, hconn] using hmem
      | timeout j =>
          have hne : j ≠ id := by simpa [touchesId] using ht
          show id ∈ (timeoutFire _ j).1.pending
          unfold timeoutFire
          split
          · exact (List.mem_erase_of_ne (fun hx => hne (hx.symm))).mpr hmem
          · exact hmem
      | connect ok =>
          show id ∈ (connectNativeHost _ ok).1.pending
          rw [connectNativeHost_pending]
          exact hmem
      | cooldown ok =>
          show id ∈ (connectNativeHost _ ok).1.pending
          rw [connectNativeHost_pending]
          exact hmem
    · rw [htimeq]
      intro hx
      exact absurd ((h1.mem_erase_iff).mp hx).1 (by simp)
  · intro hnot
    show timeoutFire _ _ = _
    unfold timeoutFire
    rw [if_neg hnot]

/-- Concrete instance of C5: request 1 is in flight and no response ever
arrives; its timeout fires, rejecting it with the timeout error and
removing it from the table. -/
theorem request_timeout_rejects_and_removes_witness :
    (step (runB initB [Ev.connect true, Ev.send true 0]).1 (Ev.timeout 1)).2 =
      [Effect.rejectEff 1 "Request timeout"] ∧
    1 ∉ (step (runB initB [Ev.connect true, Ev.send true 0]).1 (Ev.timeout 1)).1.pending := by
  have h := (request_timeout_rejects_and_removes
    [Ev.connect true, Ev.send true 0] 1).1 (by decide)
  exact ⟨by rw [h.2.1], h.2.2⟩

end CCB

namespace CCB

lemma scheduleReconnect_attempts_cases (t : BState) :
    (scheduleReconnect t).1.reconnectAttempts = t.reconnectAttempts ∨
      (scheduleReconnect t).1.reconnectAttempts = t.reconnectAttempts + 1 := by
  unfold scheduleReconnect
  split
  · exact Or.inl rfl
  · exact Or.inr rfl

lemma handleNativeMessage_conn (s : BState) (m : Msg) :
    (handleNativeMessage s m).1.isConnected = s.isConnected ∧
      (handleNativeMessage s m).1.reconnectAttempts = s.reconnectAttempts := by
  unfold handleNativeMessage
  split
  · exact ⟨rfl, rfl⟩
  · split
    · exact ⟨rfl, rfl⟩
    · exact ⟨rfl, rfl⟩

lemma timeoutFire_conn (s : BState) (id : Nat) :
    (timeoutFire s id).1.isConnected = s.isConnected ∧
      (timeoutFire s id).1.reconnectAttempts = s.reconnectAttempts := by
  unfold timeoutFire
  split
  · exact ⟨rfl, rfl⟩
  · exact ⟨rfl, rfl⟩

lemma doSend_attempts (s : BState) (postOk : Bool) (retryCount : Nat) :
    (doSend s postOk retryCount).1.reconnectAttempts = s.reconnectAttempts := by
  unfold doSend
  split
  · rfl
  · split
    · rfl
    · rfl


/-- Core of C9 over a single reachable step: `reconnectAttempts` moves from
nonzero to zero only on a transition into the connected state, and every
transition into the connected state lands with the counter at zero. -/
lemma attempts_reset_step {s : BState} (h : Inv s) (e : Ev) :
    (s.reconnectAttempts ≠ 0 → (step s e).1.reconnectAttempts = 0 →
      s.isConnected = false ∧ (step s e).1.isConnected = true) ∧
    (s.isConnected = false → (step s e).1.isConnected = true →
      (step s e).1.reconnectAttempts = 0) := by
  obtain ⟨-, -, h3⟩ := h
  cases e with
  | disconnect =>
      have hs1 : (step s Ev.disconnect).1 = (scheduleReconnect { s with isConnected := false, hasPort := false, pending := [] }).1 := rfl
      have hconn : (step s Ev.disconnect).1.isConnected = false := by
        rw [hs1, scheduleReconnect_conn]
      constructor
      · intro hne h0
        rw [hs1] at h0
        rcases scheduleReconnect_attempts_cases { s with isConnected := false, hasPort := false, pending := [] } with ha | ha
        · rw [ha] at h0
          exact absurd h0 hne
        · rw [ha] at h0
          omega
      · intro _ hct
        rw [hconn] at hct
        exact absurd hct (by simp)
  | native m =>
      obtain ⟨hc, ha⟩ := handleNativeMessage_conn s m
      constructor
      · intro hne h0
        rw [show (step s (Ev.native m)).1 = (handleNativeMessage s m).1 from rfl, ha] at h0
        exact absurd h0 hne
      · intro hcf hct
        rw [show (step s (Ev.native m)).1 = (handleNativeMessage s m).1 from rfl, hc, hcf] at hct
        exact absurd hct (by simp)
  | send postOk retryCount =>
      by_cases hconn : (s.isConnected && s.hasPort) = true
      · have hs : step s (Ev.send postOk retryCount) = doSend s postOk retryCount := by
          simp [step, hconn]
        have ha := doSend_attempts s postOk retryCount
        have hcc : s.isConnected = true := by
          have hg2 := hconn
          simp only [Bool.and_eq_true] at hg2
          exact hg2.1
        constructor
        · intro hne h0
          rw [hs, ha] at h0
          exact absurd h0 hne
        · intro hcf _
          rw [hcc] at hcf
          exact absurd hcf (by simp)
      · have hs : step s (Ev.send postOk retryCount) = (s, []) := by
          simp [step, hconn]
        constructor
        · intro hne h0
          rw [hs] at h0
          exact absurd h0 hne
        · intro hcf hct
          rw [hs, hcf] at hct
          exact absurd hct (by simp)
  | timeout id =>
      obtain ⟨hc, ha⟩ := timeoutFire_conn s id
      constructor
      · intro hne h0
        rw [show (step s (Ev.timeout id)).1 = (timeoutFire s id).1 from rfl, ha] at h0
        exact absurd h0 hne
      · intro hcf hct
        rw [show (step s (Ev.timeout id)).1 = (timeoutFire s id).1 from rfl, hc, hcf] at hct
        exact absurd hct (by simp)
  | connect ok =>
      by_cases hg : (s.isConnected && s.hasPort) = true
      · have hs : step s (Ev.connect ok) = (s, []) := by
          simp [step, connectNativeHost, hg]
        have hcc : s.isConnected = true := by
          have hg2 := hg
          simp only [Bool.and_eq_true] at hg2
          exact hg2.1
        constructor
        · intro hne h0
          rw [hs] at h0
          exact absurd h0 hne
        · intro hcf _
          rw [hcc] at hcf
          exact absurd hcf (by simp)
      · cases ok with
        | true =>
            have hs : step s (Ev.connect true) = ({ s with isConnected := true, hasPort := true, reconnectAttempts := 0 }, []) := by
              simp [step, connectNativeHost, hg]
            constructor
            · intro hne _
              refine ⟨?_, by rw [hs]⟩
              cases hci : s.isConnected with
              | false => rfl
              | true => exact absurd (h3 hci) hne
            · intro _ _
              rw [hs]
        | false =>
            have hs : step s (Ev.connect false) = scheduleReconnect { s with isConnected := false, hasPort := false } := by
              simp [step, connectNativeHost, hg]
            have hconn2 : (step s (Ev.connect false)).1.isConnected = false := by
              rw [hs, scheduleReconnect_conn]
            constructor
            · intro hne h0
              rw [hs] at h0
              rcases scheduleReconnect_attempts_cases { s with isConnected := false, hasPort := false } with ha | ha
              · rw [ha] at h0
                exact absurd h0 hne
              · rw [ha] at h0
                omega
            · intro _ hct
              rw [hconn2] at hct
              exact absurd hct (by simp)
  | cooldown ok =>
      by_cases hg : (s.isConnected && s.hasPort) = true
      · have hs : step s (Ev.cooldown ok) = ({ s with reconnectAttempts := 0 }, []) := by
          simp [step, cooldownFire, connectNativeHost, hg]
        have hcc : s.isConnected = true := by
          have hg2 := hg
          simp only [Bool.and_eq_true] at hg2
          exact hg2.1
        constructor
        · intro hne _
          exact absurd (h3 hcc) hne
        · intro hcf _
          rw [hcc] at hcf
          exact absurd hcf (by simp)
      · cases ok with
        | true =>
            have hs : step s (Ev.cooldown true) = ({ s with isConnected := true, hasPort := true, reconnectAttempts := 0 }, []) := by
              simp [step, cooldownFire, connectNativeHost, hg]
            constructor
            · intro hne _
              refine ⟨?_, by rw [hs]⟩
              cases hci : s.isConnected with
              | false => rfl
              | true => exact absurd (h3 hci) hne
            · intro _ _
              rw [hs]
        | false =>
            have hs : step s (Ev.cooldown false) = scheduleReconnect { ({ s with reconnectAttempts := 0 } : BState) with isConnected := false, hasPort := false } := by
              simp [step, cooldownFire, connectNativeHost, hg]
            have hatt2 : (step s (Ev.cooldown false)).1.reconnectAttempts = 1 := by
              rw [hs]
              unfold scheduleReconnect
              rw [if_neg (by simp [MAX_RECONNECT_ATTEMPTS])]
            have hconn2 : (step s (Ev.cooldown false)).1.isConnected = false := by
              rw [hs, scheduleReconnect_conn]
            constructor
            · intro hne h0
              rw [hatt2] at h0
              exact absurd h0 (by simp)
            · intro _ hct
              rw [hconn2] at hct
              exact absurd hct (by simp)

/-- C9: in every reachable state of the reconnect machine,
`reconnectAttempts` becomes 0 only on a step that transitions into the
connected state, and every step that transitions into the connected state
leaves it at 0. -/
theorem attempts_reset_exactly_on_connect (evs : List Ev) (e : Ev) :
    ((runB initB evs).1.reconnectAttempts ≠ 0 →
      (step (runB initB evs).1 e).1.reconnectAttempts = 0 →
      (runB initB evs).1.isConnected = false ∧
        (step (runB initB evs).1 e).1.isConnected = true) ∧
    ((runB initB evs).1.isConnected = false →
      (step (runB initB evs).1 e).1.isConnected = true →
      (step (runB initB evs).1 e).1.reconnectAttempts = 0) :=
  attempts_reset_step (inv_runB inv_initB evs) e

/-- Concrete instance of C9: after one failed attempt the counter reads 1;
the next successful connect transitions into the connected state and resets
it to 0. -/
theorem attempts_reset_exactly_on_connect_witness :
    ((runB initB [Ev.connect false]).1.isConnected = false ∧
      (step (runB initB [Ev.connect false]).1 (Ev.connect true)).1.isConnected = true) ∧
    (step (runB initB [Ev.connect false]).1 (Ev.connect true)).1.reconnectAttempts = 0 := by
  have h := attempts_reset_exactly_on_connect [Ev.connect false] (Ev.connect true)
  exact ⟨h.1 (by decide) (by decide), h.2 (by decide) (by decide)⟩

/-- C10: an inbound frame whose `requestId` is not pending is dispatched to
`handleCommand` exactly when it carries a truthy `action` field, and the
handler's normalized result is posted back stamped with that same
`requestId` whenever the port is live and the `requestId` is truthy; a
frame with neither a pending `requestId` nor an `action` changes no state
and emits nothing. -/
theorem stale_or_unsolicited_frame_routing (s : BState) (m : Msg)
    (hstale : ¬(optNatTruthy m.requestId = true ∧ m.requestId.getD 0 ∈ s.pending)) :
    (optStrTruthy m.action = true →
      handleNativeMessage s m = (s, [Effect.runCommand m]) ∧
      ∀ outcome, (handleCommand s.hasPort m outcome).2 =
        (if s.hasPort && optNatTruthy m.requestId then
          [Effect.postBack (m.requestId.getD 0) (commandResult m outcome)]
         else [])) ∧
    (optStrTruthy m.action = false → handleNativeMessage s m = (s, [])) := by
  constructor
  · intro hact
    constructor
    · unfold handleNativeMessage
      rw [if_neg hstale, if_pos hact]
    · intro outcome
      rfl
  · intro hact
    unfold handleNativeMessage
    rw [if_neg hstale, if_neg (by simp [hact])]

/-- Concrete instance of C10: a frame with unknown requestId 9 and a
`click` action is routed to the command handler, whose result is posted
back stamped with requestId 9. -/
theorem stale_or_unsolicited_frame_routing_witness :
    handleNativeMessage ⟨true, true, [], 0, 0⟩ ⟨some 9, none, some "click"⟩ =
      (⟨true, true, [], 0, 0⟩,
       [Effect.runCommand ⟨some 9, none, some "click"⟩]) ∧
    (handleCommand true ⟨some 9, none, some "click"⟩
        (CmdOutcome.ok ⟨true, none⟩)).2 =
      [Effect.postBack 9 (commandResult ⟨some 9, none, some "click"⟩
        (CmdOutcome.ok ⟨true, none⟩))] := by
  have h := (stale_or_unsolicited_frame_routing ⟨true, true, [], 0, 0⟩
    ⟨some 9, none, some "click"⟩ (by decide)).1 (by decide)
  refine ⟨h.1, ?_⟩
  have h2 := h.2 (CmdOutcome.ok ⟨true, none⟩)
  simpa [optNatTruthy] using h2

end CCB

namespace CCB

namespace Content

/-- One DOM mutation record as `waitForChange` inspects it: its `type`
string (`childList`, `attributes`, or `characterData` for real observers,
but kept open), the target's lowercased tag name, and the added/removed
node counts. -/
structure Mutation where
  mtype : String
  targetTag : String
  added : Nat
  removed : Nat
deriving DecidableEq

/-- The change record `waitForChange` pushes per qualifying mutation. -/
structure WChange where
  ctype : String
  target : String
  addedNodes : Nat
  removedNodes : Nat
deriving DecidableEq

/-- `{type, target, addedNodes, removedNodes}` built from a mutation. -/
def toWChange (m : Mutation) : WChange :=
  { ctype := m.mtype, target := m.targetTag,
    addedNodes := m.added, removedNodes := m.removed }

/-- The `continue` filter in `waitForChange`'s observer callback: with a
truthy `options.changeType`, skip a non-childList mutation under the
`childList` filter, a non-attributes mutation under `attributes`, and a
non-characterData mutation under `text`; any other `changeType` string
skips nothing. -/
def skipMutation (changeType : Option String) (m : Mutation) : Bool :=
  optStrTruthy changeType &&
    ((changeType == some "childList" && !(m.mtype == "childList")) ||
     (changeType == some "attributes" && !(m.mtype == "attributes")) ||
     (changeType == some "text" && !(m.mtype == "characterData")))

/-- Result of `waitForChange`.  `waitedMs` is timing-only and omitted; a
missing `timedOut` field on the JS object is the boolean false here. -/
structure WCResult where
  changed : Bool
  changes : List WChange
  timedOut : Bool
deriving DecidableEq

/-- The observer callback run on one mutation batch: each non-skipped
mutation is pushed; unless `waitForAll === true`, the first push resolves
immediately with the changes so far. -/
def processBatch (waitForAll : Bool) (changeType : Option String) :
    List Mutation → List WChange → List WChange × Option WCResult
  | [], acc => (acc, none)
  | m :: ms, acc =>
    if skipMutation changeType m then processBatch waitForAll changeType ms acc
    else
      let acc1 := acc ++ [toWChange m]
      if !waitForAll then
        (acc1, some { changed := true, changes := acc1, timedOut := false })
      else processBatch waitForAll changeType ms acc1

/-- Deliver the mutation batches observed before the deadline, in order;
if none of them resolved the promise, the timeout callback resolves with
`{changed:true, changes}` when anything accumulated and
`{changed:false, changes:[], timedOut:true}` otherwise. -/
def runBatches (waitForAll : Bool) (changeType : Option String) :
    List (List Mutation) → List WChange → WCResult
  | [], acc =>
    if acc.length > 0 then { changed := true, changes := acc, timedOut := false }
    else { changed := false, changes := [], timedOut := true }
  | b :: bs, acc =>
    match processBatch waitForAll changeType b acc with
    | (_, some r) => r
    | (acc1, none) => runBatches waitForAll changeType bs acc1

/-- `waitForChange`, as a function of the mutation batches its observer
receives before the timeout fires. -/
def waitForChange (waitForAll : Bool) (changeType : Option String)
    (batches : List (List Mutation)) : WCResult :=
  runBatches waitForAll changeType batches []

end Content

end CCB

namespace CCB

namespace Content

lemma processBatch_true (ct : Option String) (b : List Mutation) (acc : List WChange) :
    processBatch true ct b acc =
      (acc ++ (b.filter fun m => !skipMutation ct m).map toWChange, none) := by
  induction b generalizing acc with
  | nil => simp [processBatch]
  | cons m ms ih =>
      by_cases hm : skipMutation ct m = true
      · simp [processBatch, hm, ih]
      · simp [processBatch, hm, ih, List.append_assoc]

lemma processBatch_false_nil (ct : Option String) (b : List Mutation)
    (acc : List WChange) (h : b.filter (fun m => !skipMutation ct m) = []) :
    processBatch false ct b acc = (acc, none) := by
  induction b generalizing acc with
  | nil => simp [processBatch]
  | cons m ms ih =>
      by_cases hm : skipMutation ct m = true
      · rw [List.filter_cons, if_neg (by simp [hm])] at h
        simp [processBatch, hm, ih _ h]
      · rw [List.filter_cons, if_pos (by simp [hm])] at h
        exact absurd h (by simp)

lemma processBatch_false_cons (ct : Option String) (b : List Mutation)
    (acc : List WChange) (q : Mutation) (t : List Mutation)
    (h : b.filter (fun m => !skipMutation ct m) = q :: t) :
    processBatch false ct b acc =
      (acc ++ [toWChange q],
       some { changed := true, changes := acc ++ [toWChange q], timedOut := false }) := by
  induction b generalizing acc with
  | nil => simp at h
  | cons m ms ih =>
      by_cases hm : skipMutation ct m = true
      · rw [List.filter_cons, if_neg (by simp [hm])] at h
        simp [processBatch, hm, ih _ h]
      · rw [List.filter_cons, if_pos (by simp [hm])] at h
        injection h with h1 h2
        subst h1
        simp [processBatch, hm]

lemma runBatches_true (ct : Option String) (bs : List (List Mutation))
    (acc : List WChange) :
    runBatches true ct bs acc =
      (if (acc ++ (bs.flatten.filter fun m => !skipMutation ct m).map toWChange).length > 0
       then { changed := true,
              changes := acc ++ (bs.flatten.filter fun m => !skipMutation ct m).map toWChange,
              timedOut := false }
       else { changed := false, changes := [], timedOut := true }) := by
  induction bs generalizing acc with
  | nil => simp [runBatches]
  | cons b bs ih =>
      rw [show runBatches true ct (b :: bs) acc =
        (match processBatch true ct b acc with
         | (_, some r) => r
         | (acc1, none) => runBatches true ct bs acc1) from rfl]
      rw [processBatch_true]
      simp only []
      rw [ih]
      simp [List.filter_append, List.append_assoc]

lemma runBatches_false_nil (ct : Option String) (bs : List (List Mutation))
    (acc : List WChange)
    (h : bs.flatten.filter (fun m => !skipMutation ct m) = []) :
    runBatches false ct bs acc =
      (if acc.length > 0 then { changed := true, changes := acc, timedOut := false }
       else { changed := false, changes := [], timedOut := true }) := by
  induction bs generalizing acc with
  | nil => simp [runBatches]
  | cons b bs ih =>
      rw [List.flatten_cons, List.filter_append, List.append_eq_nil] at h
      obtain ⟨h1, h2⟩ := h
      rw [show runBatches false ct (b :: bs) acc =
        (match processBatch false ct b acc with
         | (_, some r) => r
         | (acc1, none) => runBatches false ct bs acc1) from rfl]
      rw [processBatch_false_nil ct b acc h1]
      simp only []
      exact ih _ h2

lemma runBatches_false_cons (ct : Option String) (bs : List (List Mutation))
    (acc : List WChange) (q : Mutation) (t : List Mutation)
    (h : bs.flatten.filter (fun m => !skipMutation ct m) = q :: t) :
    runBatches false ct bs acc =
      { changed := true, changes := acc ++ [toWChange q], timedOut := false } := by
  induction bs generalizing acc with
  | nil => simp at h
  | cons b bs ih =>
      rw [List.flatten_cons, List.filter_append] at h
      rw [show runBatches false ct (b :: bs) acc =
        (match processBatch false ct b acc with
         | (_, some r) => r
         | (acc1, none) => runBatches false ct bs acc1) from rfl]
      cases hb : b.filter (fun m => !skipMutation ct m) with
      | nil =>
          rw [hb, List.nil_append] at h
          rw [processBatch_false_nil ct b acc hb]
          simp only []
          exact ih _ h
      | cons q0 t0 =>
          rw [hb, List.cons_append] at h
          injection h with h1 h2
          subst h1
          rw [processBatch_false_cons ct b acc q0 t0 hb]

/-- C8: `waitForChange` reports `changed` exactly when some qualifying
mutation arrived before the deadline and `timedOut` exactly when none did
(so a timeout with at least one accumulated mutation still resolves with
`changed:true`); without `waitForAll` the returned changes are the first
qualifying mutation, with `waitForAll` they are all qualifying mutations
accumulated until the deadline. -/
theorem waitForChange_first_or_all (waitForAll : Bool) (ct : Option String)
    (batches : List (List Mutation)) :
    ((waitForChange waitForAll ct batches).changed =
      !(batches.flatten.filter fun m => !skipMutation ct m).isEmpty) ∧
    ((waitForChange waitForAll ct batches).timedOut =
      (batches.flatten.filter fun m => !skipMutation ct m).isEmpty) ∧
    ((waitForChange waitForAll ct batches).changes =
      if waitForAll then
        (batches.flatten.filter fun m => !skipMutation ct m).map toWChange
      else
        ((batches.flatten.filter fun m => !skipMutation ct m).map toWChange).take 1) := by
  cases waitForAll with
  | true =>
      unfold waitForChange
      rw [runBatches_true]
      cases hq : batches.flatten.filter (fun m => !skipMutation ct m) with
      | nil => simp [hq]
      | cons q0 t0 => simp [hq]
  | false =>
      unfold waitForChange
      cases hq : batches.flatten.filter (fun m => !skipMutation ct m) with
      | nil =>
          rw [runBatches_false_nil ct batches [] hq]
          simp
      | cons q0 t0 =>
          rw [runBatches_false_cons ct batches [] q0 t0 hq]
          simp

end Content

end CCB

namespace CCB

namespace Content

/-- The page-global request mechanisms `waitForNetworkIdle` instruments:
`window.fetch`, `XMLHttpRequest.prototype.open` and `.send`.  Function
objects are represented by identity tokens. -/
structure NetKit where
  fetchFn : Nat
  xhrOpen : Nat
  xhrSend : Nat
deriving DecidableEq

/-- A fresh wrapper function object closing over an original (the tracking
closures created inside `waitForNetworkIdle`); distinct from the original. -/
def wrapFn (orig : Nat) : Nat := orig + 1

/-- Result object of `waitForNetworkIdle` (`pendingRequests` echoes the
in-flight counter at return time). -/
structure IdleResult where
  idle : Bool
  timedOut : Bool
  waitedMs : Nat
  pendingRequests : Nat
deriving DecidableEq

/-- Tracked requests in flight at time `t`, for a schedule of
(start, completion) intervals: the wrappers increment the counter at start
and decrement it on completion. -/
def pendingAt (reqs : List (Nat × Nat)) (t : Nat) : Nat :=
  (reqs.filter fun r => r.1 ≤ t && t < r.2).length

/-- `lastActivityTime` as observed at time `t`: the latest request start or
completion at or before `t`, initialized to the call time 0. -/
def lastActivityAt (reqs : List (Nat × Nat)) (t : Nat) : Nat :=
  reqs.foldl (fun acc r =>
    let acc1 := if r.1 ≤ t then max acc r.1 else acc
    if r.2 ≤ t then max acc1 r.2 else acc1) 0

/-- The polling loop of `waitForNetworkIdle` (`await sleep(100)` per
iteration), with the call time normalized to 0; the fuel is sized in the
wrapper so that the `t < timeout` guard, not fuel exhaustion, ends the
loop. -/
def idleLoop (reqs : List (Nat × Nat)) (timeout idleTime : Nat) :
    Nat → Nat → IdleResult
  | 0, t =>
    { idle := false, timedOut := true, waitedMs := timeout,
      pendingRequests := pendingAt reqs t }
  | fuel + 1, t =>
    if t < timeout then
      if pendingAt reqs t = 0 ∧ idleTime ≤ t - lastActivityAt reqs t then
        { idle := true, timedOut := false, waitedMs := t, pendingRequests := 0 }
      else idleLoop reqs timeout idleTime fuel (t + 100)
    else
      { idle := false, timedOut := true, waitedMs := timeout,
        pendingRequests := pendingAt reqs t }

/-- `waitForNetworkIdle`: capture the three originals, install tracking
wrappers, run the polling loop inside `try`, and in the `finally` block
restore the originals — reached from both `return` paths. -/
def waitForNetworkIdle (w : NetKit) (reqs : List (Nat × Nat))
    (timeout idleTime : Nat) : IdleResult × NetKit :=
  let originalFetch := w.fetchFn
  let originalOpen := w.xhrOpen
  let originalSend := w.xhrSend
  let instrumented : NetKit :=
    { fetchFn := wrapFn originalFetch, xhrOpen := wrapFn originalOpen,
      xhrSend := wrapFn originalSend }
  let r := idleLoop reqs timeout idleTime (timeout / 100 + 1) 0
  (r, { instrumented with
        fetchFn := originalFetch, xhrOpen := originalOpen, xhrSend := originalSend })

lemma idleLoop_exit (reqs : List (Nat × Nat)) (timeout idleTime : Nat)
    (fuel t : Nat) :
    (idleLoop reqs timeout idleTime fuel t).idle = true ∨
      (idleLoop reqs timeout idleTime fuel t).timedOut = true := by
  induction fuel generalizing t with
  | zero => exact Or.inr rfl
  | succ fuel ih =>
      unfold idleLoop
      split
      · split
        · exact Or.inl rfl
        · exact ih (t + 100)
      · exact Or.inr rfl

/-- C6: whichever way `waitForNetworkIdle` returns — idle detected
(`idle:true`) or overall timeout (`timedOut:true`) — the page's original
`fetch` and the original XHR `open`/`send` are back in place when it
returns, leaving no residual instrumentation. -/
theorem waitForNetworkIdle_restores (w : NetKit) (reqs : List (Nat × Nat))
    (timeout idleTime : Nat) :
    (waitForNetworkIdle w reqs timeout idleTime).2 = w ∧
    ((waitForNetworkIdle w reqs timeout idleTime).1.idle = true ∨
      (waitForNetworkIdle w reqs timeout idleTime).1.timedOut = true) :=
  ⟨rfl, idleLoop_exit reqs timeout idleTime (timeout / 100 + 1) 0⟩

end Content

end CCB

namespace CCB

namespace Content

/-- A change record accumulated by a long-lived observer
(`{type, timestamp, target, addedNodes, removedNodes, attributeName,
oldValue}`). -/
structure MChange where
  mtype : String
  timestamp : Nat
  target : String
  addedNodes : List String
  removedNodes : List String
  attributeName : Option String
  oldValue : Option String
deriving DecidableEq

/-- A value of the `activeObservers` map: the `{ observer, changes,
target }` record stored by `observeElement`.  The `MutationObserver`
object itself is represented by an identity token. -/
structure ObsEntry where
  observer : Nat
  changes : List MChange
  target : String
deriving DecidableEq

/-- Page-context observer registry state: the `activeObservers` map (in
insertion order), a supply of fresh observer identities, and the set of
observer objects currently connected to the DOM. -/
structure ObsWorld where
  activeObservers : List (String × ObsEntry)
  nextObserver : Nat
  connected : List Nat
deriving DecidableEq

/-- JS runtime errors surfaced by these functions. -/
inductive JsError where
  | typeError (msg : String)
  | notFound (msg : String)
deriving DecidableEq

/-- Result object of `observeElement`. -/
structure ObserveResult where
  observing : Bool
  observerId : String
  target : String
deriving DecidableEq

/-- The observer callback body for one mutation record: push the change;
`if (changes.length > 100) changes.shift()` keeps only the newest 100. -/
def pushChange (changes : List MChange) (c : MChange) : List MChange :=
  let cs := changes ++ [c]
  if cs.length > 100 then cs.tail else cs

/-- `observeElement`: throws `Element not found` when the selector matches
nothing; computes `observerId = options.observerId || "obs_" + Date.now()`;
then — under the `// Stop existing observer with same ID` comment — looks
up an existing registration and calls `.disconnect()` on the stored
`{ observer, changes, target }` record itself instead of on its
`.observer` field, so an already-registered id raises a TypeError before
any new observer is created; otherwise it creates a connected observer and
registers it under the id. -/
def observeElement (w : ObsWorld) (found : Bool) (selector : String)
    (observerId : Option String) (now : Nat) :
    Except JsError (ObsWorld × ObserveResult) :=
  if !found then
    Except.error (JsError.notFound ("Element not found: " ++ selector))
  else
    let oid := if optStrTruthy observerId then observerId.getD ""
               else "obs_" ++ toString now
    if (w.activeObservers.lookup oid).isSome then
      Except.error (JsError.typeError
        "activeObservers.get(observerId).disconnect is not a function")
    else
      let tok := w.nextObserver
      Except.ok
        ({ activeObservers :=
             w.activeObservers ++ [(oid, { observer := tok, changes := [], target := selector })],
           nextObserver := tok + 1,
           connected := w.connected ++ [tok] },
         { observing := true, observerId := oid, target := selector })

/-- The two result shapes of `stopObserving`: `{found:false, observerId}`
for unknown ids, `{stopped:true, observerId, target, changes,
totalChanges}` otherwise. -/
inductive StopResult where
  | missing (observerId : String)
  | stopped (observerId : String) (target : String) (changes : List MChange)
      (totalChanges : Nat)
deriving DecidableEq

/-- `stopObserving`: unknown ids report `found:false`; otherwise the stored
observer is disconnected, the registration deleted, and the accumulated
change log returned. -/
def stopObserving (w : ObsWorld) (observerId : String) :
    ObsWorld × StopResult :=
  match w.activeObservers.lookup observerId with
  | none => (w, StopResult.missing observerId)
  | some e =>
    ({ w with
        activeObservers := w.activeObservers.filter fun p => p.1 != observerId,
        connected := w.connected.erase e.observer },
     StopResult.stopped observerId e.target e.changes e.changes.length)

/-- C7 failing input, evaluated: a first `observeElement` under id `"a"`
registers a connected observer; a second `observeElement` with the same id
does not replace it — it raises a TypeError (the stored record has no
`disconnect` method), and the prior observer remains registered and
connected. -/
theorem observeElement_second_call_raises :
    observeElement ⟨[], 0, []⟩ true "body" (some "a") 0 =
      Except.ok (⟨[("a", ⟨0, [], "body"⟩)], 1, [0]⟩, ⟨true, "a", "body"⟩) ∧
    observeElement ⟨[("a", ⟨0, [], "body"⟩)], 1, [0]⟩ true "body" (some "a") 5 =
      Except.error (JsError.typeError
        "activeObservers.get(observerId).disconnect is not a function") ∧
    (⟨[("a", ⟨0, [], "body"⟩)], 1, [0]⟩ : ObsWorld).connected = [0] := by
  exact ⟨rfl, rfl, rfl⟩

end Content

end CCB
